import Mathlib

/-!
Verification of the `vite-hmr` plugin (`src/index.ts`).

The plugin is a configuration mapper plus a dev-session marker ("hot")
file manager.  We embed:

* the Node `path` module's posix primitives used by the source
  (`dirname`, `join`, `resolve`, and the segment normalization they share);
* the plugin option record and its defaults (`hmr`);
* the `config` hook (output directory, manifest flag, rollup input
  resolution, `assetFileNames` classification);
* the `configureServer` hook: hot-URL construction from the resolved
  server address, marker-file write on `listening`, guarded `cleanup`,
  and the signal handlers, over an abstract list-based filesystem;
* the `refreshPlugin` watch-list derivation.

Directories are not modelled separately: the abstract filesystem is a
path-to-contents association list, which is all the marker-file claims
touch (the `mkdirSync` call only prepares the marker's parent directory).
-/

namespace ViteHmr

/-! ### Node posix path primitives -/

/-- Whether a character list starts with the separator `/`
(Node's `isPosixPathSeparator(path.charCodeAt(0))` check). -/
def isAbsList (cs : List Char) : Bool := cs.head? == some '/'

/-- A path string is absolute when it starts with `/`. -/
def isAbsolutePath (s : String) : Bool := isAbsList s.data

/-- Split a character list on a separator character; always returns at
least one (possibly empty) segment, like splitting a string on `/`. -/
def splitOnChar (c : Char) : List Char → List (List Char)
  | [] => [[]]
  | x :: xs =>
    match splitOnChar c xs with
    | [] => [[]]
    | s :: ss => if x = c then [] :: s :: ss else (x :: s) :: ss

/-- Node's `normalizeString` segment processing: empty and `.` segments
are dropped; `..` pops the previous segment, or is kept when nothing can
be popped and `allowAboveRoot` holds.  The accumulator `stack` holds the
kept segments in reverse order (head = most recent). -/
def normSegs (allowAboveRoot : Bool) : List (List Char) → List (List Char) → List (List Char)
  | stack, [] => stack
  | stack, seg :: rest =>
    if seg = [] ∨ seg = ['.'] then normSegs allowAboveRoot stack rest
    else if seg = ['.', '.'] then
      match stack with
      | [] => normSegs allowAboveRoot (if allowAboveRoot then [['.', '.']] else []) rest
      | t :: s' =>
        if t = ['.', '.'] then
          normSegs allowAboveRoot (if allowAboveRoot then ['.', '.'] :: t :: s' else t :: s') rest
        else normSegs allowAboveRoot s' rest
    else normSegs allowAboveRoot (seg :: stack) rest

/-- Node `path.posix.normalize`. -/
def pathNormalize (s : String) : String :=
  if s.data = [] then "."
  else
    let abs := isAbsList s.data
    let trail := s.data.getLast? == some '/'
    let stack := (normSegs (!abs) [] (splitOnChar '/' s.data)).reverse
    let body := List.intercalate ['/'] stack
    if body = [] then (if abs then "/" else if trail then "./" else ".")
    else
      let body2 := if trail then body ++ ['/'] else body
      if abs then String.mk ('/' :: body2) else String.mk body2

/-- Node `path.posix.join` restricted to two arguments, as the source
uses it: drop empty arguments, join with `/`, normalize. -/
def pathJoin (a b : String) : String :=
  let parts := [a, b].filter (fun s => !(s == ""))
  if parts = [] then "." else pathNormalize (String.intercalate "/" parts)

/-- Node `path.posix.resolve` restricted to two arguments
(`path.resolve(process.cwd(), i)` in the source): an absolute `p` stands
alone, otherwise it is appended to `cwd`; the result is normalized with
`..` kept only when the combined path is relative. -/
def pathResolve (cwd p : String) : String :=
  let abs := isAbsolutePath p || isAbsolutePath cwd
  let combined := if isAbsolutePath p then p.data else cwd.data ++ '/' :: p.data
  let stack := (normSegs (!abs) [] (splitOnChar '/' combined)).reverse
  let body := List.intercalate ['/'] stack
  if abs then String.mk ('/' :: body)
  else if body = [] then "." else String.mk body

/-- Node `path.posix.dirname`: ignoring trailing separators, everything
before the last separator; `.` when there is none, `/` (or `//`) for
root-only paths. -/
def posixDirname (s : String) : String :=
  match s.data with
  | [] => "."
  | c₀ :: rest =>
    let r := (rest.reverse.dropWhile (fun c => c = '/')).dropWhile (fun c => c ≠ '/')
    if r = [] then (if c₀ = '/' then "/" else ".")
    else if c₀ = '/' ∧ r.length = 1 then "//"
    else String.mk ((c₀ :: rest).take r.length)

/-! ### Plugin option model -/

/-- The `input` option: an array of entry paths or a Rollup-style
name-to-path map (modelled as an association list to keep key order). -/
inductive InputOption where
  | arr (paths : List String)
  | map (entries : List (String × String))
deriving DecidableEq

/-- The `refresh` option: `boolean | string | string[]`. -/
inductive RefreshOption where
  | bool (b : Bool)
  | str (s : String)
  | strs (l : List String)
deriving DecidableEq

/-- Vite's `publicDir` setting: a directory path or `false` (feature
disabled). -/
inductive PublicDirSetting where
  | dir (s : String)
  | disabled
deriving DecidableEq

/-- The optional fields accepted by `hmr(options)`. -/
structure HmrPluginOptions where
  input : Option InputOption := none
  publicDir : Option String := none
  buildDir : Option String := none
  hotFile : Option String := none
  refresh : Option RefreshOption := none
deriving DecidableEq

/-- Options after the destructuring defaults at the top of `hmr`. -/
structure ResolvedOptions where
  input : InputOption
  publicDir : String
  buildDir : String
  hotFile : String
  refresh : RefreshOption
deriving DecidableEq

/-- The destructuring defaults of `hmr`:
`input = []`, `publicDir = "public"`, `buildDir = "build"`,
`hotFile = path.join("public", "hot")`, `refresh = false`. -/
def resolveOptions (o : HmrPluginOptions) : ResolvedOptions :=
  { input := o.input.getD (.arr [])
    publicDir := o.publicDir.getD "public"
    buildDir := o.buildDir.getD "build"
    hotFile := o.hotFile.getD (pathJoin "public" "hot")
    refresh := o.refresh.getD (.bool false) }

/-! ### The `config` hook -/

/-- `assetFileNames`: `.css` assets go under `css/`, image extensions
under `images/`, everything else under `assets/`.  The `name ?? ""`
fallback of the source is the `Option.getD` below. -/
def strEndsWith (s suffix : String) : Bool := suffix.data.isSuffixOf s.data

/-- The test `/\.(gif|jpe?g|png|svg|webp)$/.test(name)`. -/
def isImageName (s : String) : Bool :=
  strEndsWith s ".gif" || strEndsWith s ".jpg" || strEndsWith s ".jpeg" ||
  strEndsWith s ".png" || strEndsWith s ".svg" || strEndsWith s ".webp"

/-- The `assetFileNames` callback of the rollup output options. -/
def assetFileNames (name : Option String) : String :=
  let n := name.getD ""
  if strEndsWith n ".css" then "css/[name][extname]"
  else if isImageName n then "images/[name][extname]"
  else "assets/[name][extname]"

/-- Rollup `input` as produced by the `config` hook: an array is mapped
through `path.resolve(process.cwd(), i)`, a map is passed through. -/
def resolveInput (cwd : String) : InputOption → InputOption
  | .arr l => .arr (l.map (pathResolve cwd))
  | .map m => .map m

/-- The settings returned by the `config(userConfig)` hook. -/
structure BuildSettings where
  publicDir : PublicDirSetting
  outDir : String
  manifest : Bool
  rollupInput : InputOption
  entryFileNames : String
  chunkFileNames : String
deriving DecidableEq

/-- The `config` hook: `publicDir: userConfig.publicDir ?? false`,
`outDir: path.join(publicDir, buildDir)`, `manifest: true`, resolved
rollup input and the fixed entry/chunk naming patterns. -/
def configHook (r : ResolvedOptions) (cwd : String)
    (userPublicDir : Option PublicDirSetting) : BuildSettings :=
  { publicDir := userPublicDir.getD .disabled
    outDir := pathJoin r.publicDir r.buildDir
    manifest := true
    rollupInput := resolveInput cwd r.input
    entryFileNames := "js/[name].js"
    chunkFileNames := "js/[name]-[hash].js" }

/-! ### The dev-server marker ("hot") file -/

/-- The value of `server.httpServer?.address()`:
`null`/`undefined`, a pipe-name string, or an `AddressInfo` record. -/
inductive AddressResult where
  | null
  | str (s : String)
  | info (address : String) (port : Nat)
deriving DecidableEq

/-- The `isAddressInfo` type guard
(`typeof addr === "object" && addr !== null`). -/
def isAddressInfo : AddressResult → Bool
  | .info _ _ => true
  | _ => false

/-- Host selection: `address.address === "::" ? "localhost" :
address.address`, with `"localhost"` when there is no address info. -/
def hotHost : AddressResult → String
  | .info addr _ => if addr = "::" then "localhost" else addr
  | _ => "localhost"

/-- Port selection: the address info's port, else the default `5173`. -/
def hotPort : AddressResult → Nat
  | .info _ p => p
  | _ => 5173

/-- The URL written into the hot file: `http://<host>:<port>`. -/
def hotUrl (a : AddressResult) : String :=
  "http://" ++ hotHost a ++ ":" ++ toString (hotPort a)

/-- Abstract filesystem: an association list from path to contents. -/
structure FS where
  files : List (String × String)
deriving DecidableEq

/-- `fs.existsSync`. -/
def existsSync (p : String) (fs : FS) : Bool :=
  (fs.files.lookup p).isSome

/-- `fs.readFileSync`, as far as the claims need it. -/
def readFile (p : String) (fs : FS) : Option String :=
  fs.files.lookup p

/-- `fs.writeFileSync`: create or overwrite. -/
def writeFileSync (p c : String) (fs : FS) : FS :=
  ⟨(p, c) :: fs.files.filter (fun e => !(e.1 == p))⟩

/-- `fs.unlinkSync`: fails with `ENOENT` when the file is missing. -/
def unlinkSync (p : String) (fs : FS) : Except String FS :=
  if existsSync p fs then .ok ⟨fs.files.filter (fun e => !(e.1 == p))⟩
  else .error "ENOENT"

/-- The `listening` handler: write the hot URL into the hot file
(the `mkdirSync` for the parent directory has no effect on the
path-to-contents model). -/
def onListening (hotFile : String) (a : AddressResult) (fs : FS) : FS :=
  writeFileSync hotFile (hotUrl a) fs

/-- The `cleanup` closure: `if (fs.existsSync(hotFile))
fs.unlinkSync(hotFile)`. -/
def cleanup (hotFile : String) (fs : FS) : Except String FS :=
  if existsSync hotFile fs then unlinkSync hotFile fs else .ok fs

/-- The two statements of each signal handler body. -/
inductive Action where
  | runCleanup
  | exitProcess
deriving DecidableEq

/-- The body of both the `SIGINT` and the `SIGTERM` handler:
`cleanup(); process.exit(0);`. -/
def signalHandlerBody : List Action := [.runCleanup, .exitProcess]

/-- Process state while running a signal handler. -/
structure ProcState where
  fs : FS
  exited : Bool
deriving DecidableEq

/-- Run a handler body: `cleanup` may fail (its `unlinkSync` could),
`process.exit(0)` terminates the process at once, dropping the rest. -/
def runActions (hotFile : String) : ProcState → List Action → Except String ProcState
  | st, [] => .ok st
  | st, .runCleanup :: rest =>
    (cleanup hotFile st.fs).bind fun fs' => runActions hotFile ⟨fs', st.exited⟩ rest
  | st, .exitProcess :: _ => .ok ⟨st.fs, true⟩

/-! ### The `refreshPlugin` watch lists -/

/-- `Array.isArray(input) ? input : Object.values(input)`. -/
def inputPathsOf : InputOption → List String
  | .arr l => l
  | .map m => m.map (fun e => e.2)

/-- `p.replace(/\\/g, "/")`. -/
def replaceBackslashes (s : String) : String :=
  String.mk (s.data.map fun c => if c = '\\' then '/' else c)

/-- `path.dirname(p.replace(/\\/g, "/"))`. -/
def parentDir (p : String) : String :=
  posixDirname (replaceBackslashes p)

/-- `Array.from(new Set(list))`: JavaScript `Set` keeps insertion order,
so this deduplicates keeping each element's first occurrence. -/
def dedupeFirst (l : List String) : List String :=
  l.foldl (fun acc x => if x ∈ acc then acc else acc ++ [x]) []

/-- The watch lists handed to `fullReload`, one list per invocation:
`false` makes none, `true` derives the input paths' parent directories,
a string or string array is passed through. -/
def refreshWatchLists (refresh : RefreshOption) (input : InputOption) : List (List String) :=
  match refresh with
  | .bool false => []
  | .bool true => [dedupeFirst ((inputPathsOf input).map parentDir)]
  | .strs l => [l]
  | .str s => [[s]]

/-! ### Spec-side definitions (for refinement statements) -/

/-- Spec-side definition: the distinct elements of a list, in order of
first occurrence (each element kept at its first appearance). -/
def firstOccurrences : List String → List String
  | [] => []
  | x :: xs => x :: firstOccurrences (xs.filter (fun y => !(y == x)))
termination_by l => l.length
decreasing_by
  simp only [List.length_cons]
  exact Nat.lt_succ_of_le (List.length_filter_le _ _)

/-- The claim's predicate: an unspecified ("bind-all") address, in the
textual forms Node reports (`::` for IPv6 `in6addr_any`, `0.0.0.0` for
IPv4 `INADDR_ANY`). -/
def isUnspecifiedBindAll (a : String) : Bool :=
  a = "::" || a = "0.0.0.0"

/-! ### Filesystem lemmas -/

theorem lookup_filter_ne (p : String) (l : List (String × String)) :
    (l.filter (fun e => !(e.1 == p))).lookup p = none := by
  induction l with
  | nil => rfl
  | cons e es ih =>
    by_cases h : e.1 = p
    · simp [List.filter_cons, h, ih]
    · have hb : (e.1 == p) = false := by simp [h]
      have hb2 : (p == e.1) = false := by
        simp only [beq_eq_false_iff_ne, ne_eq]
        exact fun hc => h hc.symm
      simp [List.filter_cons, hb, hb2, List.lookup, ih]

theorem lookup_writeFileSync_self (p c : String) (fs : FS) :
    readFile p (writeFileSync p c fs) = some c := by
  simp [readFile, writeFileSync, List.lookup]

theorem cleanup_ok (hf : String) (fs : FS) :
    cleanup hf fs =
      .ok (if existsSync hf fs then ⟨fs.files.filter (fun e => !(e.1 == hf))⟩ else fs) := by
  by_cases h : existsSync hf fs <;> simp [cleanup, unlinkSync, h]

theorem existsSync_after_cleanup (hf : String) (fs fs' : FS)
    (h : cleanup hf fs = .ok fs') : existsSync hf fs' = false := by
  rw [cleanup_ok] at h
  by_cases he : existsSync hf fs
  · simp only [he, if_true, Except.ok.injEq] at h
    subst h
    simp [existsSync, lookup_filter_ne]
  · simp only [he, if_false, Except.ok.injEq] at h
    subst h
    simpa using he

theorem cleanup_noop_of_absent (hf : String) (fs : FS)
    (h : existsSync hf fs = false) : cleanup hf fs = .ok fs := by
  simp [cleanup, h]

/-! ### Deduplication refinement -/

theorem foldl_dedupe (l : List String) : ∀ acc : List String,
    l.foldl (fun acc x => if x ∈ acc then acc else acc ++ [x]) acc =
      acc ++ firstOccurrences (l.filter (fun x => decide (x ∉ acc))) := by
  induction l with
  | nil => intro acc; simp [firstOccurrences]
  | cons x xs ih =>
    intro acc
    by_cases h : x ∈ acc
    · rw [List.foldl_cons, if_pos h, ih acc]
      have hx : (decide (x ∉ acc)) = false := by simp [h]
      rw [List.filter_cons_of_neg (by simp [hx])]
    · rw [List.foldl_cons, if_neg h, ih (acc ++ [x])]
      have hx : (decide (x ∉ acc)) = true := by simp [h]
      rw [List.filter_cons_of_pos (by simp [hx])]
      rw [firstOccurrences]
      have hfilters :
          xs.filter (fun y => decide (y ∉ acc ++ [x])) =
            (xs.filter (fun y => decide (y ∉ acc))).filter (fun y => !(y == x)) := by
        rw [List.filter_filter]
        apply List.filter_congr
        intro y _
        by_cases hy1 : y = x
        · simp [hy1, List.mem_append]
        · by_cases hy2 : y ∈ acc <;> simp [hy1, hy2, List.mem_append]
      rw [hfilters, List.append_assoc, List.singleton_append]

theorem dedupeFirst_eq_firstOccurrences (l : List String) :
    dedupeFirst l = firstOccurrences l := by
  have h := foldl_dedupe l []
  simpa [dedupeFirst] using h

/-! ### Suffix lemmas for the asset classifier -/

theorem strEndsWith_iff (s u : String) : strEndsWith s u = true ↔ u.data <:+ s.data := by
  simp [strEndsWith]

theorem endsWith_clash {n u v : String} (hu : strEndsWith n u = true)
    (h₁ : ¬ (u.data <:+ v.data)) (h₂ : ¬ (v.data <:+ u.data)) :
    strEndsWith n v = false := by
  cases hsv : strEndsWith n v
  · rfl
  · exfalso
    rw [strEndsWith_iff] at hu hsv
    rcases List.suffix_or_suffix_of_suffix hu hsv with h | h
    · exact h₁ h
    · exact h₂ h

theorem image_not_css {n : String} (h : isImageName n = true) :
    strEndsWith n ".css" = false := by
  simp only [isImageName, Bool.or_eq_true] at h
  rcases h with ((((h | h) | h) | h) | h) | h <;>
    exact endsWith_clash h (by decide) (by decide)

/-! ### Path resolution lemma -/

theorem pathResolve_absolute (cwd p : String) (h : isAbsolutePath cwd = true) :
    isAbsolutePath (pathResolve cwd p) = true := by
  have habs : (isAbsolutePath p || isAbsolutePath cwd) = true := by
    rw [h, Bool.or_true]
  simp only [pathResolve, habs, if_true]
  simp [isAbsolutePath, isAbsList]

/-! ### Claim theorems -/

/-- Claim C1, counterexample: the IPv4 unspecified (bind-all) address
0.0.0.0 is address info for which the host substituted into the marker
URL is 0.0.0.0 itself, not "localhost"; with port 5174 the marker file
holds "http://0.0.0.0:5174". -/
theorem hot_host_bind_all_counterexample :
    isUnspecifiedBindAll "0.0.0.0" = true ∧
    isAddressInfo (.info "0.0.0.0" 5174) = true ∧
    hotHost (.info "0.0.0.0" 5174) = "0.0.0.0" ∧
    "0.0.0.0" ≠ "localhost" ∧
    readFile "public/hot" (onListening "public/hot" (.info "0.0.0.0" 5174) ⟨[]⟩) =
      some "http://0.0.0.0:5174" := by
  decide

/-- Claim C1 (amended): when the resolved address is the IPv6 unspecified
address "::" the host substituted is "localhost"; any other address
string is used verbatim; the port defaults to 5173 (and the host to
"localhost") when no address info is available; the marker file's entire
contents equal "http://<host>:<port>"; resolved address "::" with port
5174 yields exactly "http://localhost:5174". -/
theorem hot_url_amended (hf addr : String) (p : Nat) (a : AddressResult) (fs : FS) :
    hotHost (.info "::" p) = "localhost" ∧
    (addr ≠ "::" → hotHost (.info addr p) = addr) ∧
    hotPort .null = 5173 ∧
    hotHost .null = "localhost" ∧
    readFile hf (onListening hf a fs) =
      some ("http://" ++ hotHost a ++ ":" ++ toString (hotPort a)) ∧
    hotUrl (.info "::" 5174) = "http://localhost:5174" := by
  refine ⟨by simp [hotHost], ?_, rfl, rfl, ?_, by decide⟩
  · intro h
    simp [hotHost, h]
  · exact lookup_writeFileSync_self hf (hotUrl a) fs

theorem hot_url_amended_witness :
    hotHost (.info "0.0.0.0" 5174) = "0.0.0.0" ∧
    readFile "public/hot" (onListening "public/hot" (.info "::" 5174) ⟨[]⟩) =
      some "http://localhost:5174" := by
  have h := hot_url_amended "public/hot" "0.0.0.0" 5174 (.info "::" 5174) ⟨[]⟩
  exact ⟨h.2.1 (by decide), h.2.2.2.2.1.trans (by decide)⟩

/-- Claim C2: with reload (refresh) enabled as the boolean true, the
derived watch list is the distinct parent directories of every input
path (values when the input is a mapping), computed after replacing
backslashes with forward slashes, ordered by first occurrence; inputs
src/js/a.ts and src/css/b.css yield exactly src/js, src/css. -/
theorem refresh_auto_roots (l : List String) (m : List (String × String)) :
    refreshWatchLists (.bool true) (.arr l) = [firstOccurrences (l.map parentDir)] ∧
    refreshWatchLists (.bool true) (.map m) =
      [firstOccurrences ((m.map (fun e => e.2)).map parentDir)] ∧
    refreshWatchLists (.bool true) (.arr ["src/js/a.ts", "src/css/b.css"]) =
      [["src/js", "src/css"]] := by
  refine ⟨?_, ?_, by decide⟩ <;>
    simp [refreshWatchLists, inputPathsOf, dedupeFirst_eq_firstOccurrences]

/-- Claim C3: the asset naming rule maps names ending in ".css" into the
css/ subfolder, names ending in ".gif", ".jpg", ".jpeg", ".png", ".svg"
or ".webp" into the images/ subfolder, and every other name into the
assets/ subfolder. -/
theorem asset_file_names_classes (name : String) :
    (strEndsWith name ".css" = true → assetFileNames (some name) = "css/[name][extname]") ∧
    (isImageName name = true → assetFileNames (some name) = "images/[name][extname]") ∧
    (strEndsWith name ".css" = false → isImageName name = false →
      assetFileNames (some name) = "assets/[name][extname]") := by
  refine ⟨fun h => ?_, fun h => ?_, fun h₁ h₂ => ?_⟩
  · simp [assetFileNames, h]
  · simp [assetFileNames, image_not_css h, h]
  · simp [assetFileNames, h₁, h₂]

theorem asset_file_names_classes_witness :
    assetFileNames (some "app.css") = "css/[name][extname]" ∧
    assetFileNames (some "logo.png") = "images/[name][extname]" ∧
    assetFileNames (some "font.woff2") = "assets/[name][extname]" :=
  ⟨(asset_file_names_classes "app.css").1 (by decide),
   (asset_file_names_classes "logo.png").2.1 (by decide),
   (asset_file_names_classes "font.woff2").2.2 (by decide) (by decide)⟩

/-- Claim C4: for every plugin configuration, the produced build settings
have output directory publicDir joined with buildDir and manifest
generation enabled; publicDir "public" with buildDir "build" gives
"public/build". -/
theorem config_outdir_manifest (o : HmrPluginOptions) (cwd : String)
    (upd : Option PublicDirSetting) :
    (configHook (resolveOptions o) cwd upd).outDir =
      pathJoin (resolveOptions o).publicDir (resolveOptions o).buildDir ∧
    (configHook (resolveOptions o) cwd upd).manifest = true ∧
    (configHook (resolveOptions { publicDir := some "public", buildDir := some "build" })
        cwd upd).outDir = "public/build" ∧
    pathJoin "public" "build" = "public/build" :=
  ⟨rfl, rfl, by rfl, by decide⟩

/-- Claim C5: cleanup deletes the marker only after an existence check
and is idempotent: cleanup never fails and running it twice in a row
changes nothing further, and a session start (marker write) followed by
cleanup leaves no marker file. -/
theorem cleanup_guarded_idempotent (hf : String) (a : AddressResult) (fs : FS) :
    (∃ fs₁, cleanup hf fs = .ok fs₁ ∧ cleanup hf fs₁ = .ok fs₁) ∧
    (∃ fs₂, cleanup hf (onListening hf a fs) = .ok fs₂ ∧ existsSync hf fs₂ = false) := by
  constructor
  · refine ⟨_, cleanup_ok hf fs, ?_⟩
    exact cleanup_noop_of_absent hf _ (existsSync_after_cleanup hf fs _ (cleanup_ok hf fs))
  · exact ⟨_, cleanup_ok hf (onListening hf a fs),
      existsSync_after_cleanup hf _ _ (cleanup_ok hf (onListening hf a fs))⟩

/-- Claim C6: a list-valued input option is mapped through
path.resolve(process.cwd(), i), yielding absolute paths whenever the
working directory is absolute; a mapping-valued input option is passed
through unchanged. -/
theorem resolve_input_spec (cwd : String) (l : List String) (m : List (String × String)) :
    resolveInput cwd (.arr l) = .arr (l.map (pathResolve cwd)) ∧
    (isAbsolutePath cwd = true → ∀ p ∈ l, isAbsolutePath (pathResolve cwd p) = true) ∧
    resolveInput cwd (.map m) = .map m := by
  refine ⟨rfl, ?_, rfl⟩
  intro h p _
  exact pathResolve_absolute cwd p h

theorem resolve_input_spec_witness :
    isAbsolutePath "/work" = true ∧
    isAbsolutePath (pathResolve "/work" "src/a.ts") = true :=
  ⟨by decide, (resolve_input_spec "/work" ["src/a.ts"] []).2.1 (by decide) "src/a.ts" (by decide)⟩

/-- Claim C7: the SIGINT and SIGTERM handler body runs cleanup strictly
before the process-exit statement, and running the handler succeeds,
exits, and leaves no marker file, under every starting filesystem. -/
theorem signal_cleanup_before_exit (hf : String) (fs : FS) :
    signalHandlerBody = [Action.runCleanup, Action.exitProcess] ∧
    (∃ st', runActions hf ⟨fs, false⟩ signalHandlerBody = .ok st' ∧
      existsSync hf st'.fs = false ∧ st'.exited = true) := by
  refine ⟨rfl, ⟨(if existsSync hf fs then ⟨fs.files.filter (fun e => !(e.1 == hf))⟩ else fs),
    true⟩, ?_, ?_, rfl⟩
  · simp [signalHandlerBody, runActions, cleanup_ok hf fs, Except.bind]
  · exact existsSync_after_cleanup hf fs _ (cleanup_ok hf fs)

/-- Claim C8: a string or string-list reload (refresh) option is passed
to the reload mechanism unchanged: a single string becomes the
one-element list containing it and a list is passed through as-is, with
no filesystem access involved at all. -/
theorem refresh_explicit_passthrough (s : String) (l : List String) (i : InputOption) :
    refreshWatchLists (.str s) i = [[s]] ∧
    refreshWatchLists (.strs l) i = [l] ∧
    refreshWatchLists (.strs ["custom/**/*.php"]) i = [["custom/**/*.php"]] :=
  ⟨rfl, rfl, rfl⟩

/-- Claim C9: with no options the defaults are input entries empty,
public directory "public", build subdirectory "build", marker file path
"public/hot", and reload disabled, under which the reload watch-list is
empty (no additional behavior). -/
theorem default_options_spec :
    resolveOptions {} =
      { input := .arr [], publicDir := "public", buildDir := "build",
        hotFile := "public/hot", refresh := .bool false } ∧
    (∀ i, refreshWatchLists (.bool false) i = []) ∧
    refreshWatchLists (resolveOptions {}).refresh (resolveOptions {}).input = [] :=
  ⟨by decide, fun _ => rfl, rfl⟩

/-- Claim C10: the config hook sets the host tool's publicDir to the
user's own value when present and to false (the disabled setting) when
the user configuration leaves it unset. -/
theorem public_dir_passthrough (r : ResolvedOptions) (cwd : String) (v : PublicDirSetting) :
    (configHook r cwd (some v)).publicDir = v ∧
    (configHook r cwd none).publicDir = PublicDirSetting.disabled :=
  ⟨rfl, rfl⟩

end ViteHmr
